import Mathlib

/-!
Shallow embedding of the Luna voice assistant pipeline
(repository afif25fradana/luna-voice-assistant-offline).

Python strings are modelled as `List Char`.  Machine floats appearing in
the RMS energy computation are abstracted into a rational field carried
by each audio frame; all control flow that branches on those values is
modelled exactly.  External services (json parsing, the Ollama endpoint,
the microphone) are modelled as oracle inputs.
-/

/-- Python strings are modelled as lists of characters. -/
abbrev PyStr := List Char

/-- The single-quote character, written via its code point. -/
def sqChar : Char := Char.ofNat 39

/-- The opening curly brace character. -/
def braceL : Char := Char.ofNat 123

/-- The closing curly brace character. -/
def braceR : Char := Char.ofNat 125

/-- ASCII lowercasing of one character, as Python str.lower acts on ASCII. -/
def asciiLower (c : Char) : Char :=
  if 65 ≤ c.toNat ∧ c.toNat ≤ 90 then Char.ofNat (c.toNat + 32) else c

/-- Python str.lower restricted to ASCII, as used on command strings. -/
def pyLower (s : PyStr) : PyStr := s.map asciiLower

/-- Whitespace test matching Python str.strip default characters. -/
def pyIsSpace (c : Char) : Bool :=
  c = ' ' || c.toNat = 9 || c.toNat = 10 || c.toNat = 11 || c.toNat = 12 || c.toNat = 13

/-- Python str.strip: drop whitespace from both ends. -/
def pyStrip (s : PyStr) : PyStr :=
  ((s.dropWhile pyIsSpace).reverse.dropWhile pyIsSpace).reverse

/-- Python substring containment, needle in haystack. -/
def listContains (needle : PyStr) : PyStr → Bool
  | [] => needle.isEmpty
  | c :: t => needle.isPrefixOf (c :: t) || listContains needle t

/-- Python str.endswith on character lists. -/
def listEndsWith (suffix s : PyStr) : Bool :=
  suffix.reverse.isPrefixOf s.reverse

/-- First-match lookup in an association list, as a Python dict get. -/
def lookupList (m : List (PyStr × α)) (k : PyStr) : Option α :=
  match m with
  | [] => none
  | (k2, v) :: rest => if k2 = k then some v else lookupList rest k

/-! ## Conversation memory (src/src/modul_memory.py) -/

/-- One conversation message: role, content and timestamp, as stored by
ChatMemory.add_message. -/
structure Msg where
  role : PyStr
  content : PyStr
  ts : Nat
deriving DecidableEq

/-- The ChatMemory state: the in-memory history, the configured cap, and
the list most recently written to the backing JSON file. -/
structure ChatMemory where
  history : List Msg
  maxMemorySize : Nat
  savedFile : List Msg
deriving DecidableEq

/-- Python slice history[-k:]: for k = 0 the slice keeps the whole list,
because -0 is 0; for positive k it keeps the last k elements. -/
def pySliceLast (k : Nat) (l : List α) : List α :=
  if k = 0 then l else l.drop (l.length - k)

/-- A freshly constructed ChatMemory whose file held no usable history. -/
def emptyMemory (maxSize : Nat) : ChatMemory :=
  { history := [], maxMemorySize := maxSize, savedFile := [] }

/-- ChatMemory.add_message: append, trim with history[-max:] when the
length exceeds the cap, then save. -/
def addMessage (m : ChatMemory) (role content : PyStr) (ts : Nat) : ChatMemory :=
  let h := m.history ++ [⟨role, content, ts⟩]
  let h2 := if m.maxMemorySize < h.length then pySliceLast m.maxMemorySize h else h
  { m with history := h2, savedFile := h2 }

/-- ChatMemory.clear_memory: empty the history and save. -/
def clearMemory (m : ChatMemory) : ChatMemory :=
  { m with history := [], savedFile := [] }

/-- A mutation of the memory, for stating the size invariant. -/
inductive MemOp where
  | add (x : Msg)
  | clear
deriving DecidableEq

/-- Apply one mutation. -/
def applyOp (m : ChatMemory) : MemOp → ChatMemory
  | .add x => addMessage m x.role x.content x.ts
  | .clear => clearMemory m

/-- Apply a sequence of mutations in order. -/
def applyOps (m : ChatMemory) (ops : List MemOp) : ChatMemory :=
  ops.foldl applyOp m

/-- Run a sequence of add_message calls in order. -/
def addAll (m : ChatMemory) (msgs : List Msg) : ChatMemory :=
  msgs.foldl (fun st x => addMessage st x.role x.content x.ts) m

/-! ## JSON values, for the external json.loads oracle -/

/-- JSON values, the shape of what Python json.loads can return. -/
inductive JsonV where
  | null
  | boolv (b : Bool)
  | num (n : Int)
  | str (s : PyStr)
  | arr (elems : List JsonV)
  | obj (fields : List (PyStr × JsonV))

/-- ChatMemory loading (src/src/modul_memory.py, _load_memory): a missing
file or a json.loads failure yields the empty list; any successfully
parsed value is assigned to the history as is.  The file contents are
modelled as an optional text and json.loads as an oracle. -/
def loadMemoryHistory (file : Option PyStr) (loads : PyStr → Option JsonV) : JsonV :=
  match file with
  | none => JsonV.arr []
  | some s =>
    match loads s with
    | none => JsonV.arr []
    | some v => v

/-! ## Sentence dispatcher (gui.py, _update_assistant_bubble) -/

/-- Sentence-terminating punctuation, the regex class [.?!]. -/
def isTermChar (c : Char) : Bool := c = '.' || c = '?' || c = '!'

/-- Split a buffer at the first sentence terminator, inclusive on the
left: mirrors re.search followed by slicing at match.end. -/
def splitFirstTerm : PyStr → Option (PyStr × PyStr)
  | [] => none
  | c :: cs =>
    if isTermChar c then some ([c], cs)
    else
      match splitFirstTerm cs with
      | some (l, r) => some (c :: l, r)
      | none => none

/-- One token-processing step of the dispatcher: append the token, split
at the first terminator if present, emit the stripped left part, keep
the remainder. -/
def processToken (buf tok : PyStr) : Option PyStr × PyStr :=
  let b := buf ++ tok
  match splitFirstTerm b with
  | some (l, r) => (some (pyStrip l), r)
  | none => (none, b)

/-- Process a whole token stream, returning emitted sentences and the
final buffer. -/
def runDispatcher (buf : PyStr) : List PyStr → List PyStr × PyStr
  | [] => ([], buf)
  | t :: ts =>
    match processToken buf t with
    | (some s, b2) =>
      let (rest, bf) := runDispatcher b2 ts
      (s :: rest, bf)
    | (none, b2) => runDispatcher b2 ts

/-- The full dispatcher including the end-of-stream flush: on
StopIteration the stripped remaining buffer is spoken when non-empty. -/
def dispatchStream (toks : List PyStr) : List PyStr :=
  let (sents, final) := runDispatcher [] toks
  if (pyStrip final).isEmpty then sents else sents ++ [pyStrip final]

/-! ## Voice activity segmenter (src/src/modul_stt.py) -/

/-- One PCM frame as seen by the segmenter: its sample count, its RMS
energy (the float computation is abstracted into a rational), and the
webrtcvad speech verdict for it. -/
structure Frame where
  samples : Nat
  rms : ℚ
  isSpeech : Bool
deriving DecidableEq

/-- The frame-count thresholds and the volume floor, as resolved once at
the top of _process_vad from the millisecond configuration. -/
structure VadConfig where
  silenceThreshold : Nat
  minVoicedFrames : Nat
  maxVoicedFrames : Nat
  minVolume : ℚ
deriving DecidableEq

/-- The thresholds derived from config.py: 800 ms silence, 1000 ms
minimum and 10000 ms maximum of voiced audio at 30 ms frames, and the
RMS floor 300.  Python int() on these positive ratios truncates, which
is Nat division. -/
def realVadConfig : VadConfig :=
  { silenceThreshold := 800 / 30
    minVoicedFrames := 1000 / 30
    maxVoicedFrames := 10000 / 30
    minVolume := 300 }

/-- The mutable segmenter state: voiced_frames_buffer,
silent_frames_count and is_speaking. -/
structure SegState where
  buffer : List Frame
  silentCount : Nat
  isSpeaking : Bool
deriving DecidableEq

/-- The state right after start_listening: cleared buffer, zero silence
counter, not speaking. -/
def initState : SegState := ⟨[], 0, false⟩

/-- Byte length of the joined buffer: two bytes per int16 sample. -/
def bufferBytes (b : List Frame) : Nat :=
  2 * (b.map Frame.samples).sum

/-- The guard at the top of _process_and_transcribe_buffer: the joined
recording is written and transcribed only when it is non-empty and at
least 2000 bytes long. -/
def transcribesBuffer (b : List Frame) : Bool :=
  decide (2000 ≤ bufferBytes b)

/-- One loop iteration of _process_vad on a dequeued frame.  Returns the
new state and, when _process_and_transcribe_buffer was invoked, the
buffer handed to it.  Empty frames and frames whose RMS is below the
volume floor are skipped before any state handling. -/
def stepFrame (cfg : VadConfig) (s : SegState) (f : Frame) : SegState × Option (List Frame) :=
  if f.samples = 0 then (s, none)
  else if f.rms < cfg.minVolume then (s, none)
  else if f.isSpeech then
    let buf := s.buffer ++ [f]
    if cfg.maxVoicedFrames < buf.length then
      (⟨[], 0, false⟩, some buf)
    else
      (⟨buf, 0, true⟩, none)
  else if s.isSpeaking then
    let buf := s.buffer ++ [f]
    let sc := s.silentCount + 1
    if cfg.silenceThreshold < sc then
      if cfg.minVoicedFrames < buf.length then
        (⟨[], 0, false⟩, some buf)
      else
        (⟨[], 0, false⟩, none)
    else
      (⟨buf, sc, true⟩, none)
  else (s, none)

/-- Run the segmenter over a frame sequence, collecting every buffer
handed to _process_and_transcribe_buffer. -/
def runFrames (cfg : VadConfig) (s : SegState) : List Frame → SegState × List (List Frame)
  | [] => (s, [])
  | f :: fs =>
    let (s2, ev) := stepFrame cfg s f
    let (s3, evs) := runFrames cfg s2 fs
    (s3, match ev with | some b => b :: evs | none => evs)

/-- The stop_listening flush: _process_and_transcribe_buffer is invoked
exactly when the buffer is non-empty at stop time. -/
def stopFlush (s : SegState) : Option (List Frame) :=
  if s.buffer.isEmpty then none else some s.buffer

/-- Whether an utterance actually reaches the transcriber at stop time:
the flush must run and survive the 2000-byte guard. -/
def stopEmits (s : SegState) : Bool :=
  match stopFlush s with
  | some b => transcribesBuffer b
  | none => false

/-- The volume gate of _audio_callback: a frame is enqueued only when it
is non-empty and its RMS is strictly above the floor. -/
def audioCallbackEnqueues (minVolume : ℚ) (f : Frame) : Bool :=
  decide (0 < f.samples) && decide (minVolume < f.rms)

/-- A 30 ms speech frame at 16 kHz with RMS 301, above the floor. -/
def speechFrame : Frame := { samples := 480, rms := 301, isSpeech := true }

/-- A 30 ms non-speech frame at 16 kHz with RMS 301, above the floor. -/
def quietFrame : Frame := { samples := 480, rms := 301, isSpeech := false }

/-! ## Intent router (modul_ai.py, get_intent) -/

/-- The dictionary returned by get_intent, as a tagged variant.  Field
values keep their parsed JSON shape, as the Python dict passes them
through unchanged. -/
inductive IntentD where
  | chat
  | openUrl (url : JsonV)
  | searchGoogle (query : JsonV)
  | openShortcut (key : JsonV) (params : JsonV)

/-- The uncaught Python exceptions the router model can surface. -/
inductive PyErr where
  | attributeError
deriving DecidableEq

/-- The outcome of the classification POST: a response text, or one of
the request failures that the code catches. -/
inductive NetOutcome where
  | netOk (raw : PyStr)
  | connErr
  | timeoutErr
  | requestErr

/-- Markdown fence opener checked by get_intent. -/
def fenceOpen : PyStr := "```json".toList

/-- Markdown fence closer checked by get_intent. -/
def fenceClose : PyStr := "```".toList

/-- Strip + fence removal applied to the raw response text before json
parsing: full_response_text.strip, then the slice [7:-3] stripped when
the text starts with the json fence and ends with a fence. -/
def prepResponse (raw : PyStr) : PyStr :=
  let t := pyStrip raw
  if fenceOpen.isPrefixOf t && listEndsWith fenceClose t then
    pyStrip ((t.take (t.length - 3)).drop 7)
  else t

/-- Dispatch on the parsed JSON value, mirroring the action checks of
get_intent.  A parse failure gives chat; a parsed non-object makes the
attribute access parsed_response.get raise AttributeError, which no
except clause of get_intent catches. -/
def routeParsed (p : Option JsonV) : Except PyErr IntentD :=
  match p with
  | none => .ok .chat
  | some (.obj fs) =>
    match lookupList fs "action".toList with
    | some (.str a) =>
      if a = "chat".toList then .ok .chat
      else if a = "open_url".toList then
        match lookupList fs "url".toList with
        | some u => .ok (.openUrl u)
        | none => .ok .chat
      else if a = "search_google".toList then
        match lookupList fs "query".toList with
        | some q => .ok (.searchGoogle q)
        | none => .ok .chat
      else if a = "open_shortcut".toList then
        match lookupList fs "key".toList with
        | some k => .ok (.openShortcut k ((lookupList fs "params".toList).getD (.obj [])))
        | none => .ok .chat
      else .ok .chat
    | _ => .ok .chat
  | some _ => .error .attributeError

/-- get_intent: network failures default to chat; otherwise the stripped
and defenced response is parsed by the json.loads oracle and routed. -/
def get_intent (net : NetOutcome) (loads : PyStr → Option JsonV) : Except PyErr IntentD :=
  match net with
  | .netOk raw => routeParsed (loads (prepResponse raw))
  | _ => .ok .chat

/-! ## Command execution (modul_ai.py execute_command_directly and
modul_helper.py run_shortcut, plus src/src/modul_helper.py) -/

/-- Config.SECURITY_COMMAND_BLACKLIST from config.py. -/
def securityCommandBlacklist : List PyStr :=
  ["rm -rf".toList, "format".toList, "shutdown".toList, ":()\x7b:|:&\x7d;".toList]

/-- The denylist test of execute_command_directly: any blacklist entry
occurring in the lowercased command string. -/
def blacklistHit (cmd : PyStr) : Bool :=
  securityCommandBlacklist.any (fun b => listContains b (pyLower cmd))

/-- Case-insensitive containment of the rm -rf substring, the property
the claim quantifies over. -/
def containsRmRf (cmd : PyStr) : Bool :=
  listContains "rm -rf".toList (pyLower cmd)

/-- The open_url command resolution: web and file URLs are wrapped in
xdg-open with single quotes, anything else is run as given. -/
def resolveUrlCommand (u : PyStr) : PyStr :=
  if "http://".toList.isPrefixOf u || "https://".toList.isPrefixOf u
      || "file:///".toList.isPrefixOf u then
    "xdg-open ".toList ++ [sqChar] ++ u ++ [sqChar]
  else u

/-- UTF-8 bytes of one character, for percent encoding. -/
def utf8Bytes (c : Char) : List Nat :=
  let n := c.toNat
  if n < 128 then [n]
  else if n < 2048 then [192 + n / 64, 128 + n % 64]
  else if n < 65536 then [224 + n / 4096, 128 + (n / 64) % 64, 128 + n % 64]
  else [240 + n / 262144, 128 + (n / 4096) % 64, 128 + (n / 64) % 64, 128 + n % 64]

/-- Uppercase hexadecimal digit. -/
def hexDigit (n : Nat) : Char :=
  if n < 10 then Char.ofNat (48 + n) else Char.ofNat (55 + n)

/-- Characters urllib.parse.quote leaves unescaped with the default
safe set: ASCII alphanumerics, underscore, dot, dash, tilde, slash. -/
def quoteKeeps (c : Char) : Bool :=
  c.isAlphanum || c = '_' || c = '.' || c = '-' || c = '~' || c = '/'

/-- urllib.parse.quote of one character. -/
def quoteChar (c : Char) : PyStr :=
  if quoteKeeps c then [c]
  else (utf8Bytes c).foldr (fun b acc => Char.ofNat 37 :: hexDigit (b / 16) :: hexDigit (b % 16) :: acc) []

/-- urllib.parse.quote with the default safe characters. -/
def urlQuote (s : PyStr) : PyStr := s.foldr (fun c acc => quoteChar c ++ acc) []

/-- The search_google command string, with the query percent-encoded. -/
def googleCommand (q : PyStr) : PyStr :=
  "xdg-open ".toList ++ [sqChar] ++ "https://www.google.com/search?q=".toList
    ++ urlQuote q ++ [sqChar]

/-- Split a list at the first occurrence of a character, returning the
parts before and after it. -/
def splitAtChar (target : Char) : PyStr → Option (PyStr × PyStr)
  | [] => none
  | c :: cs =>
    if c = target then some ([], cs)
    else (splitAtChar target cs).map (fun p => (c :: p.1, p.2))

/-- Python str.format restricted to the simple replacement fields the
shortcut templates use.  Doubled braces denote literal braces; a
dangling brace or an unknown field name is a format error, as those
raise in Python.  Fuel-based recursion so that concrete instances
evaluate by kernel reduction; the fuel never runs out when it is at
least the template length plus one. -/
def formatTemplateFuel (kwargs : List (PyStr × PyStr)) : Nat → PyStr → Option PyStr
  | 0, _ => none
  | _ + 1, [] => some []
  | fuel + 1, c :: rest =>
    if c = braceL then
      match rest with
      | [] => none
      | c2 :: rest2 =>
        if c2 = braceL then (formatTemplateFuel kwargs fuel rest2).map (fun t => braceL :: t)
        else
          match splitAtChar braceR rest with
          | none => none
          | some (nm, after) =>
            match lookupList kwargs nm with
            | none => none
            | some v => (formatTemplateFuel kwargs fuel after).map (fun t => v ++ t)
    else if c = braceR then
      match rest with
      | [] => none
      | c2 :: rest2 =>
        if c2 = braceR then (formatTemplateFuel kwargs fuel rest2).map (fun t => braceR :: t)
        else none
    else (formatTemplateFuel kwargs fuel rest).map (fun t => c :: t)

/-- cmd_template.format applied to the encoded keyword arguments. -/
def formatTemplate (kwargs : List (PyStr × PyStr)) (tmpl : PyStr) : Option PyStr :=
  formatTemplateFuel kwargs (tmpl.length + 1) tmpl

/-- The keyword arguments after urllib.parse.quote, as run_shortcut
encodes every value before substitution. -/
def encodeKwargs (params : List (PyStr × PyStr)) : List (PyStr × PyStr) :=
  params.map (fun p => (p.1, urlQuote p.2))

/-- Outcome of the top-level modul_helper.run_shortcut, the module that
modul_ai.py imports: an unknown key raises ValueError; a failing
template substitution raises outside the try block; otherwise the
command is launched through the shell with no safety check. -/
inductive ShortcutResult where
  | valueError
  | formatError
  | launched (cmd : PyStr)

/-- run_shortcut from the top-level modul_helper.py.  The shortcut table
is a parameter because personal_shortcuts.py is configuration data.
There is no denylist or safety validation on this path. -/
def run_shortcut (shortcuts : List (PyStr × PyStr)) (key : PyStr)
    (kwargs : List (PyStr × PyStr)) : ShortcutResult :=
  match lookupList shortcuts key with
  | none => .valueError
  | some tmpl =>
    match formatTemplate (encodeKwargs kwargs) tmpl with
    | none => .formatError
    | some cmd => .launched cmd

/-- SAFE_COMMANDS from src/src/modul_helper.py. -/
def safeCommands : List PyStr :=
  ["xdg-open".toList, "firefox".toList, "google-chrome".toList, "chromium".toList,
   "code".toList, "subl".toList, "gedit".toList, "nano".toList, "vim".toList, "emacs".toList]

/-- DANGEROUS_PATTERNS from src/src/modul_helper.py. -/
def dangerousPatterns : List PyStr :=
  ["rm -rf".toList, "format".toList, "shutdown".toList, ":()\x7b:|:&\x7d;".toList,
   "sudo".toList, "su".toList, "chmod 777".toList, "chown root".toList,
   "mkfs".toList, "dd if=".toList, "wget .* -O /".toList, "curl .* | sh".toList,
   "cat /etc/passwd".toList, "cat /etc/shadow".toList]

/-- Join argument words with single spaces, as a str.join of a command
list. -/
def joinSpace : List PyStr → PyStr
  | [] => []
  | [w] => w
  | w :: ws => w ++ [' '] ++ joinSpace ws

/-- The command validator of src/src/modul_helper.py: an empty argument
list is unsafe, a known-safe first word is accepted before any pattern
check, and otherwise the lowercased joined command must avoid every
dangerous pattern. -/
def is_command_safe (commandList : List PyStr) : Bool :=
  match commandList with
  | [] => false
  | name :: _ =>
    if safeCommands.contains name then true
    else
      let commandStr := pyLower (joinSpace commandList)
      !(dangerousPatterns.any (fun p => listContains p commandStr))

/-- Observable events of one execute_command_directly generator run:
shell launches and yielded user-visible strings, in order. -/
inductive ExecEv where
  | launch (cmd : PyStr)
  | yieldMsg (text : PyStr)
deriving DecidableEq

/-- The refusal yielded on a blacklist hit. -/
def restrictedMsg : PyStr := "⚠️ This action is restricted for security reasons.".toList

/-- Confirmation for a launched URL or shortcut. -/
def okOpenedMsg : PyStr := "Okay, I opened it.".toList

/-- Confirmation for a launched search. -/
def okSearchedMsg : PyStr := "Okay, I searched for it.".toList

/-- Confirmation for a launched fallback command. -/
def okExecutedMsg : PyStr := "Okay, I executed that command.".toList

/-- Error message for a missing url field. -/
def noUrlMsg : PyStr := "Error: No URL provided for open_url action.".toList

/-- Error message for a missing query field. -/
def noQueryMsg : PyStr := "Error: No query provided for search_google action.".toList

/-- Error message for a missing shortcut key. -/
def noKeyMsg : PyStr := "Error: No shortcut key provided for open_shortcut action.".toList

/-- Error message for the fallback branch without a command. -/
def unknownActionMsg : PyStr := "Error: Unknown action or missing command in intent data.".toList

/-- Message yielded when run_shortcut raises ValueError for an unknown
key. -/
def noShortcutMsg (key : PyStr) : PyStr :=
  "Error: No shortcut found for key: ".toList ++ key

/-- Fixed prefix of the message yielded when run_shortcut raises an
unexpected exception; the Python text appends the exception itself. -/
def unexpectedShortcutMsg : PyStr :=
  "**An unexpected error occurred during shortcut execution:**".toList

/-- The intent dictionary as execute_command_directly reads it, with the
optional string fields it accesses via dict.get. -/
inductive IntentData where
  | openUrlI (url : Option PyStr)
  | searchGoogleI (query : Option PyStr)
  | openShortcutI (key : Option PyStr) (params : List (PyStr × PyStr))
  | directI (command : Option PyStr)

/-- execute_command_directly: each branch resolves its command string,
the url, search and fallback branches test the denylist before
launching, and the shortcut branch delegates to run_shortcut with every
exception converted to a yielded message.  Process launches are modelled
as succeeding. -/
def execute_command_directly (shortcuts : List (PyStr × PyStr)) :
    IntentData → List ExecEv
  | .openUrlI none => [.yieldMsg noUrlMsg]
  | .openUrlI (some url) =>
    if url.isEmpty then [.yieldMsg noUrlMsg]
    else
      let cmd := resolveUrlCommand url
      if blacklistHit cmd then [.yieldMsg restrictedMsg]
      else [.launch cmd, .yieldMsg okOpenedMsg]
  | .searchGoogleI none => [.yieldMsg noQueryMsg]
  | .searchGoogleI (some q) =>
    if q.isEmpty then [.yieldMsg noQueryMsg]
    else
      let cmd := googleCommand q
      if blacklistHit cmd then [.yieldMsg restrictedMsg]
      else [.launch cmd, .yieldMsg okSearchedMsg]
  | .openShortcutI none _ => [.yieldMsg noKeyMsg]
  | .openShortcutI (some key) params =>
    if key.isEmpty then [.yieldMsg noKeyMsg]
    else
      match run_shortcut shortcuts key params with
      | .launched cmd => [.launch cmd, .yieldMsg okOpenedMsg]
      | .valueError => [.yieldMsg (noShortcutMsg key)]
      | .formatError => [.yieldMsg unexpectedShortcutMsg]
  | .directI none => [.yieldMsg unknownActionMsg]
  | .directI (some c) =>
    if c.isEmpty then [.yieldMsg unknownActionMsg]
    else if blacklistHit c then [.yieldMsg restrictedMsg]
    else [.launch c, .yieldMsg okExecutedMsg]

/-! ## Response filter and streaming chat (modul_ai.py) -/

/-- One element of a filter pattern head: a case-insensitive literal or
a non-empty maximal digit run.  Every _FILTER_PATTERNS regex is such a
head followed by a DOTALL .+ that greedily consumes to the end of the
text, so re.sub removes everything from the first position where the
head matches with at least one character left after it.  The \n* of the
second pattern is absorbed into the trailing .+ because a newline also
matches the dot under DOTALL. -/
inductive PatTok where
  | lit (s : PyStr)
  | digits

/-- Case-insensitive literal prefix removal. -/
def ciPrefixDrop (l s : PyStr) : Option PyStr :=
  if pyLower (s.take l.length) = pyLower l then some (s.drop l.length) else none

/-- Match a pattern head at the start of a text, returning the remainder
after it.  The digit runs are maximal, which is exact here because every
literal following a digit run starts with a space. -/
def matchHead : List PatTok → PyStr → Option PyStr
  | [], s => some s
  | .lit l :: ps, s =>
    match ciPrefixDrop l s with
    | none => none
    | some r => matchHead ps r
  | .digits :: ps, s =>
    if (s.takeWhile Char.isDigit).isEmpty then none
    else matchHead ps (s.dropWhile Char.isDigit)

/-- One re.sub pass of a head-plus-dotall-rest pattern: scan for the
first position where the head matches with a non-empty remainder and
cut the text there. -/
def applyPat (h : List PatTok) : PyStr → PyStr
  | [] => []
  | c :: cs =>
    match matchHead h (c :: cs) with
    | some r => if r.isEmpty then c :: applyPat h cs else []
    | none => c :: applyPat h cs

/-- The heads of the eight _FILTER_PATTERNS regexes, in order. -/
def filterPatternHeads : List (List PatTok) :=
  [[.lit "### Instruction:".toList],
   [.lit "---".toList],
   [.lit "## New Constraints:".toList],
   [.lit "Your response should include".toList],
   [.lit "Respond with ONLY".toList],
   [.lit "Increase Diff".toList, .digits, .lit " complexity by".toList],
   [.lit "Format the response as JSON".toList],
   [.lit "Add at least ".toList, .digits, .lit " more constraints".toList]]

/-- The _filter_response function: the eight substitution passes in
order, then a final strip. -/
def filterResponse (s : PyStr) : PyStr :=
  pyStrip (filterPatternHeads.foldl (fun t h => applyPat h t) s)

/-- The apology stored when filtering empties the response. -/
def apologyMsg : PyStr :=
  "I".toList ++ [sqChar]
    ++ "m sorry, I encountered an issue with that response or it was filtered. Could you ask something else?".toList

/-- The single token yielded when the streaming call fails with a
connection, timeout or request error; the Python text appends the
exception after this prefix. -/
def errorToken (errText : PyStr) : PyStr :=
  "Error: Failed to connect to Ollama. ".toList ++ errText

/-- Role string of the user. -/
def userRole : PyStr := "user".toList

/-- Role string of the assistant. -/
def assistantRole : PyStr := "assistant".toList

/-- One observable event of the streaming generation call: a parsed
response line carrying a token and the done flag, or a connection or
timeout failure raised while iterating the stream. -/
inductive StreamEv where
  | chunk (tok : PyStr) (done : Bool)
  | netFail (err : PyStr)

/-- The streaming loop of ask_ollama_chat: consume events in order,
yielding and accumulating tokens, stopping at the first done chunk, and
reporting a failure when one interrupts the stream.  Returns the yielded
tokens, the accumulated raw response, and the failure if any. -/
def streamLoop : List StreamEv → List PyStr × PyStr × Option PyStr
  | [] => ([], [], none)
  | .chunk t d :: rest =>
    if d then ([t], t, none)
    else
      let (ys, acc, e) := streamLoop rest
      (t :: ys, t ++ acc, e)
  | .netFail m :: _ => ([], [], some m)

/-- ask_ollama_chat: the user message is appended to memory before the
call; on a clean stream end the accumulated response is filtered, an
empty filtered text is replaced by the apology, and the result is
appended once as the assistant message; on a stream failure one error
token is yielded and nothing further is written to memory.  Returns the
yielded tokens and the final memory. -/
def ask_ollama_chat (mem : ChatMemory) (prompt : PyStr) (events : List StreamEv)
    (ts1 ts2 : Nat) : List PyStr × ChatMemory :=
  let mem1 := addMessage mem userRole prompt ts1
  let (ys, acc, e) := streamLoop events
  match e with
  | some m => (ys ++ [errorToken m], mem1)
  | none =>
    let f := filterResponse acc
    let fm := if f.isEmpty then apologyMsg else f
    (ys, addMessage mem1 assistantRole fm ts2)

/-- The tokens of a list of events, ignoring done flags and failures. -/
def chunkToks : List StreamEv → List PyStr
  | [] => []
  | .chunk t _ :: rest => t :: chunkToks rest
  | .netFail _ :: rest => chunkToks rest

/-- Concatenation of the tokens of a list of events. -/
def joinChunks : List StreamEv → PyStr
  | [] => []
  | .chunk t _ :: rest => t ++ joinChunks rest
  | .netFail _ :: rest => joinChunks rest

/-- Whether every event is a not-done chunk, the shape of the consumed
prefix before a mid-stream failure. -/
def allChunksNotDone : List StreamEv → Bool
  | [] => true
  | .chunk _ false :: rest => allChunksNotDone rest
  | _ => false

/-! ## Theorems -/

/-- Helper: the history written by one add_message, in closed form. -/
theorem addMessage_history_eq (m : ChatMemory) (r c : PyStr) (t : Nat) :
    (addMessage m r c t).history =
      (if m.maxMemorySize < m.history.length + 1
        then pySliceLast m.maxMemorySize (m.history ++ [Msg.mk r c t])
        else m.history ++ [Msg.mk r c t]) := by
  simp [addMessage, List.length_append]

/-- Helper: add_message does not change the configured cap. -/
theorem addMessage_max_eq (m : ChatMemory) (r c : PyStr) (t : Nat) :
    (addMessage m r c t).maxMemorySize = m.maxMemorySize := rfl

/-- Helper: the trimming step of add_message maps the kept suffix of the
previous messages to the kept suffix after one more message, whenever
the cap is positive. -/
theorem sliceStep (maxSize : Nat) (hmax : 1 ≤ maxSize) (ms : List Msg) (x : Msg) :
    (if maxSize < (ms.drop (ms.length - maxSize)).length + 1
      then pySliceLast maxSize (ms.drop (ms.length - maxSize) ++ [x])
      else ms.drop (ms.length - maxSize) ++ [x])
    = (ms ++ [x]).drop (ms.length + 1 - maxSize) := by
  rw [List.length_drop]
  by_cases hms : maxSize ≤ ms.length
  · rw [if_pos (by omega)]
    unfold pySliceLast
    rw [if_neg (by omega : ¬ maxSize = 0)]
    have hL : (ms.drop (ms.length - maxSize) ++ [x]).length - maxSize = 1 := by
      rw [List.length_append, List.length_drop, List.length_singleton]
      omega
    rw [hL]
    rw [List.drop_append_of_le_length
      (by rw [List.length_drop]; omega : 1 ≤ (ms.drop (ms.length - maxSize)).length)]
    rw [List.drop_drop]
    rw [List.drop_append_of_le_length (show ms.length + 1 - maxSize ≤ ms.length by omega)]
    have h3 : ms.length - maxSize + 1 = ms.length + 1 - maxSize := by omega
    rw [h3]
  · rw [if_neg (by omega)]
    have h1 : ms.length - maxSize = 0 := by omega
    have h2 : ms.length + 1 - maxSize = 0 := by omega
    rw [h1, h2, List.drop_zero, List.drop_zero]

/-- Helper: with a positive cap, the history after a run of add_message
calls from the empty memory is exactly the suffix of the added messages
that fits the cap, and the cap is unchanged. -/
theorem addAll_history (maxSize : Nat) (hmax : 1 ≤ maxSize) (msgs : List Msg) :
    (addAll (emptyMemory maxSize) msgs).history = msgs.drop (msgs.length - maxSize) ∧
      (addAll (emptyMemory maxSize) msgs).maxMemorySize = maxSize := by
  induction msgs using List.reverseRecOn with
  | nil => constructor <;> simp [addAll, emptyMemory]
  | append_singleton ms x ih =>
    obtain ⟨ih1, ih2⟩ := ih
    have hstep : addAll (emptyMemory maxSize) (ms ++ [x]) =
        addMessage (addAll (emptyMemory maxSize) ms) x.role x.content x.ts := by
      unfold addAll
      rw [List.foldl_append]
      rfl
    have hmk : (Msg.mk x.role x.content x.ts) = x := rfl
    refine ⟨?_, ?_⟩
    · rw [hstep, addMessage_history_eq, ih1, ih2, hmk, List.length_append,
        List.length_singleton]
      exact sliceStep maxSize hmax ms x
    · rw [hstep, addMessage_max_eq, ih2]

/-- Helper: one add_message keeps the history length within a positive
cap. -/
theorem addMessage_length_le (m : ChatMemory) (r c : PyStr) (t : Nat)
    (hmax : 1 ≤ m.maxMemorySize) (h : m.history.length ≤ m.maxMemorySize) :
    (addMessage m r c t).history.length ≤ m.maxMemorySize := by
  rw [addMessage_history_eq]
  by_cases hc : m.maxMemorySize < m.history.length + 1
  · rw [if_pos hc]
    unfold pySliceLast
    rw [if_neg (by omega : ¬ m.maxMemorySize = 0)]
    rw [List.length_drop]
    omega
  · rw [if_neg hc]
    rw [List.length_append, List.length_singleton]
    omega

/-- Helper: any sequence of mutations from a state within a positive cap
stays within the cap, with the cap unchanged. -/
theorem applyOps_length_le (m : ChatMemory) (ops : List MemOp)
    (hmax : 1 ≤ m.maxMemorySize) (h : m.history.length ≤ m.maxMemorySize) :
    (applyOps m ops).history.length ≤ (applyOps m ops).maxMemorySize ∧
      (applyOps m ops).maxMemorySize = m.maxMemorySize := by
  induction ops generalizing m with
  | nil => exact ⟨h, rfl⟩
  | cons op rest ih =>
    have hone : (applyOp m op).history.length ≤ m.maxMemorySize ∧
        (applyOp m op).maxMemorySize = m.maxMemorySize := by
      cases op with
      | add x => exact ⟨addMessage_length_le m x.role x.content x.ts hmax h, rfl⟩
      | clear => exact ⟨by simp [applyOp, clearMemory], rfl⟩
    have hcons : applyOps m (op :: rest) = applyOps (applyOp m op) rest := rfl
    have := ih (applyOp m op) (by rw [hone.2]; exact hmax) (by rw [hone.2]; exact hone.1)
    rw [hcons]
    exact ⟨this.1, by rw [this.2, hone.2]⟩

/-- Claim C8 (amended): for every positive max_memory_size, after any
sequence of add_message calls from an empty ChatMemory the history is
exactly the most recent messages in insertion order, its length is
min(count, max_memory_size), and the length stays within the cap after
any sequence of mutations (add_message or clear_memory).  The amendment
restricts the cap to be at least 1: with max_memory_size = 0 the Python
slice history[-0:] keeps the whole list, so the cap is not enforced. -/
theorem claim8_memory_cap_amended (maxSize : Nat) (hmax : 1 ≤ maxSize)
    (msgs : List Msg) (ops : List MemOp) :
    (addAll (emptyMemory maxSize) msgs).history = msgs.drop (msgs.length - maxSize)
    ∧ (addAll (emptyMemory maxSize) msgs).history.length = min msgs.length maxSize
    ∧ (applyOps (emptyMemory maxSize) ops).history.length ≤ maxSize := by
  obtain ⟨h1, _⟩ := addAll_history maxSize hmax msgs
  refine ⟨h1, ?_, ?_⟩
  · rw [h1, List.length_drop]
    omega
  · have := applyOps_length_le (emptyMemory maxSize) ops hmax (by simp [emptyMemory])
    have h2 : (applyOps (emptyMemory maxSize) ops).maxMemorySize = maxSize := this.2
    rw [h2] at this
    exact this.1

/-- Claim C8 counterexample: with max_memory_size = 0, a single
add_message leaves one entry in the history, violating both
len(history) = min(count, max_memory_size) and the invariant
len(history) <= max_memory_size, because Python history[-0:] is the
whole list. -/
theorem claim8_memory_cap_counterexample :
    (addMessage (emptyMemory 0) userRole "hi".toList 0).history.length = 1
    ∧ (emptyMemory 0).maxMemorySize = 0
    ∧ ¬ ((addMessage (emptyMemory 0) userRole "hi".toList 0).history.length = min 1 0)
    ∧ ¬ ((addMessage (emptyMemory 0) userRole "hi".toList 0).history.length ≤ 0) := by
  decide

/-- Claim C8 witness: the amended statement at max_memory_size 3 with
five additions retains the last three messages. -/
theorem claim8_memory_cap_witness :
    (addAll (emptyMemory 3)
        [⟨userRole, "a".toList, 0⟩, ⟨userRole, "b".toList, 1⟩, ⟨userRole, "c".toList, 2⟩,
         ⟨userRole, "d".toList, 3⟩, ⟨userRole, "e".toList, 4⟩]).history =
      List.drop 2
        [⟨userRole, "a".toList, 0⟩, ⟨userRole, "b".toList, 1⟩, ⟨userRole, "c".toList, 2⟩,
         ⟨userRole, "d".toList, 3⟩, ⟨userRole, "e".toList, 4⟩]
    ∧ (addAll (emptyMemory 3)
        [⟨userRole, "a".toList, 0⟩, ⟨userRole, "b".toList, 1⟩, ⟨userRole, "c".toList, 2⟩,
         ⟨userRole, "d".toList, 3⟩, ⟨userRole, "e".toList, 4⟩]).history.length = min 5 3
    ∧ (applyOps (emptyMemory 3) [.add ⟨userRole, "a".toList, 0⟩, .clear]).history.length ≤ 3 :=
  claim8_memory_cap_amended 3 (by decide)
    [⟨userRole, "a".toList, 0⟩, ⟨userRole, "b".toList, 1⟩, ⟨userRole, "c".toList, 2⟩,
     ⟨userRole, "d".toList, 3⟩, ⟨userRole, "e".toList, 4⟩]
    [.add ⟨userRole, "a".toList, 0⟩, .clear]

/-- Claim C9: loading ConversationMemory from a missing file or from a
file whose contents json.loads rejects yields an empty history; the
model function is total, matching that both FileNotFoundError and
JSONDecodeError are caught. -/
theorem claim9_load_missing_or_invalid (loads : PyStr → Option JsonV) (s : PyStr)
    (h : loads s = none) :
    loadMemoryHistory none loads = JsonV.arr []
    ∧ loadMemoryHistory (some s) loads = JsonV.arr [] := by
  refine ⟨rfl, ?_⟩
  simp [loadMemoryHistory, h]

/-- Claim C9 witness: the statement at a parser that rejects the
concrete corrupted text. -/
theorem claim9_load_witness :
    loadMemoryHistory none (fun _ => none) = JsonV.arr []
    ∧ loadMemoryHistory (some "not json".toList) (fun _ => none) = JsonV.arr [] :=
  claim9_load_missing_or_invalid (fun _ => none) "not json".toList rfl

/-- Helper: when no terminator is found the buffer contains none. -/
theorem splitFirstTerm_none (b : PyStr) (h : splitFirstTerm b = none) :
    ∀ c ∈ b, isTermChar c = false := by
  induction b with
  | nil => intro c hc; cases hc
  | cons c cs ih =>
    intro d hd
    by_cases ht : isTermChar c
    · exfalso
      unfold splitFirstTerm at h
      rw [if_pos ht] at h
      cases h
    · unfold splitFirstTerm at h
      rw [if_neg ht] at h
      cases hd with
      | head => simpa using ht
      | tail _ hmem =>
        cases hsp : splitFirstTerm cs with
        | none => exact ih hsp d hmem
        | some p =>
          rw [hsp] at h
          cases h

/-- Helper: a successful split cuts the buffer at its first terminator,
inclusive on the left. -/
theorem splitFirstTerm_some (b l r : PyStr) (h : splitFirstTerm b = some (l, r)) :
    ∃ p c, l = p ++ [c] ∧ b = p ++ c :: r ∧ isTermChar c = true ∧
      ∀ x ∈ p, isTermChar x = false := by
  induction b generalizing l r with
  | nil => cases h
  | cons c cs ih =>
    by_cases ht : isTermChar c
    · unfold splitFirstTerm at h
      rw [if_pos ht] at h
      obtain ⟨hl, hr⟩ := Prod.mk.injEq .. ▸ (Option.some.injEq .. ▸ h)
      refine ⟨[], c, ?_, ?_, ht, ?_⟩
      · simp [hl.symm]
      · simp [hr.symm]
      · intro x hx; cases hx
    · unfold splitFirstTerm at h
      rw [if_neg ht] at h
      cases hsp : splitFirstTerm cs with
      | none => rw [hsp] at h; cases h
      | some p =>
        obtain ⟨l2, r2⟩ := p
        rw [hsp] at h
        obtain ⟨hl, hr⟩ := Prod.mk.injEq .. ▸ (Option.some.injEq .. ▸ h)
        obtain ⟨p2, c2, hpc, hb, htc, hnt⟩ := ih l2 r2 hsp
        refine ⟨c :: p2, c2, ?_, ?_, htc, ?_⟩
        · rw [← hl, hpc]; rfl
        · rw [← hr, hb]; rfl
        · intro x hx
          cases hx with
          | head => simpa using ht
          | tail _ hmem => exact hnt x hmem

/-- Claim C5: the sentence dispatcher appends each token to the rolling
buffer and consumes at most one terminator per step, splitting at the
first terminator inclusive, emitting the stripped left part and keeping
the remainder with no character lost or duplicated; at stream end a
non-empty stripped buffer is emitted once; and the stream
Hel / lo. / How-are-you / ? yields exactly Hello. then How are you?. -/
theorem claim5_sentence_dispatcher :
    (dispatchStream ["Hel".toList, "lo.".toList, " How are you".toList, "?".toList] =
      ["Hello.".toList, "How are you?".toList])
    ∧ (∀ buf tok : PyStr,
        (processToken buf tok = (none, buf ++ tok) ∧ ∀ c ∈ buf ++ tok, isTermChar c = false) ∨
        (∃ p c r, buf ++ tok = p ++ c :: r ∧ isTermChar c = true ∧
          (∀ x ∈ p, isTermChar x = false) ∧
          processToken buf tok = (some (pyStrip (p ++ [c])), r)))
    ∧ (∀ toks : List PyStr,
        ((pyStrip (runDispatcher [] toks).2).isEmpty = true →
          dispatchStream toks = (runDispatcher [] toks).1)
        ∧ ((pyStrip (runDispatcher [] toks).2).isEmpty = false →
          dispatchStream toks = (runDispatcher [] toks).1 ++ [pyStrip (runDispatcher [] toks).2])) := by
  refine ⟨by decide, ?_, ?_⟩
  · intro buf tok
    cases hsp : splitFirstTerm (buf ++ tok) with
    | none =>
      left
      constructor
      · simp only [processToken]
        rw [hsp]
      · exact splitFirstTerm_none _ hsp
    | some p =>
      obtain ⟨l, r⟩ := p
      right
      obtain ⟨p2, c2, hpc, hb, htc, hnt⟩ := splitFirstTerm_some _ _ _ hsp
      refine ⟨p2, c2, r, hb, htc, hnt, ?_⟩
      simp only [processToken]
      rw [hsp, ← hpc]
  · intro toks
    constructor
    · intro h
      cases hrd : runDispatcher [] toks with
      | mk sents final =>
        have h2 : (pyStrip final).isEmpty = true := by rw [hrd] at h; exact h
        simp only [dispatchStream, hrd]
        rw [if_pos h2]
    · intro h
      cases hrd : runDispatcher [] toks with
      | mk sents final =>
        have h2 : (pyStrip final).isEmpty = false := by rw [hrd] at h; exact h
        simp only [dispatchStream, hrd]
        rw [if_neg (by simp [h2])]

/-- Claim C5 witness: the end-of-stream flush clause at the concrete
one-token stream Hi, whose stripped final buffer is non-empty. -/
theorem claim5_sentence_witness :
    dispatchStream ["Hi".toList] =
      (runDispatcher [] ["Hi".toList]).1 ++ [pyStrip (runDispatcher [] ["Hi".toList]).2] :=
  (claim5_sentence_dispatcher.2.2 ["Hi".toList]).2 (by decide)

/-- Helper: an empty frame is skipped by the worker. -/
theorem stepFrame_empty (cfg : VadConfig) (s : SegState) (f : Frame)
    (h : f.samples = 0) : stepFrame cfg s f = (s, none) := by
  unfold stepFrame
  rw [if_pos h]

/-- Helper: a below-floor frame is skipped by the worker. -/
theorem stepFrame_low (cfg : VadConfig) (s : SegState) (f : Frame)
    (hn : f.samples ≠ 0) (hlow : f.rms < cfg.minVolume) :
    stepFrame cfg s f = (s, none) := by
  unfold stepFrame
  rw [if_neg hn, if_pos hlow]

/-- Claim C10: in the segmenter worker every frame whose RMS is below
the volume floor is skipped before any state handling, so it is neither
buffered nor counted toward silence; the capture callback independently
refuses to enqueue such a frame; and any frame that affects the state
machine at all was non-empty with RMS at or above the floor, so a
boundary can only be declared by an at-or-above-floor frame. -/
theorem claim10_volume_gate (cfg : VadConfig) (s : SegState) (f : Frame)
    (hn : f.samples ≠ 0) (hlow : f.rms < cfg.minVolume) :
    stepFrame cfg s f = (s, none)
    ∧ audioCallbackEnqueues cfg.minVolume f = false
    ∧ (∀ (g : Frame) (s2 : SegState), stepFrame cfg s2 g ≠ (s2, none) →
        ¬ g.rms < cfg.minVolume ∧ g.samples ≠ 0) := by
  refine ⟨stepFrame_low cfg s f hn hlow, ?_, ?_⟩
  · unfold audioCallbackEnqueues
    have : ¬ cfg.minVolume < f.rms := not_lt_of_gt hlow
    simp [this]
  · intro g s2 hne
    by_cases hg : g.samples = 0
    · exact absurd (stepFrame_empty cfg s2 g hg) hne
    · by_cases hr : g.rms < cfg.minVolume
      · exact absurd (stepFrame_low cfg s2 g hg hr) hne
      · exact ⟨hr, hg⟩

/-- Claim C10 witness: a 480-sample frame with RMS 299 below the floor
300, against the real configuration and the idle state. -/
theorem claim10_volume_gate_witness :
    stepFrame realVadConfig initState ⟨480, 299, true⟩ = (initState, none)
    ∧ audioCallbackEnqueues realVadConfig.minVolume ⟨480, 299, true⟩ = false
    ∧ (∀ (g : Frame) (s2 : SegState), stepFrame realVadConfig s2 g ≠ (s2, none) →
        ¬ g.rms < realVadConfig.minVolume ∧ g.samples ≠ 0) :=
  claim10_volume_gate realVadConfig initState ⟨480, 299, true⟩ (by decide) (by decide)

/-- Claim C2 (amended): at the silence boundary (a processed non-speech
frame in the speaking state whose incremented silence count exceeds the
threshold) the buffer is handed to transcription if and only if its
frame count is STRICTLY greater than minVoicedFrames, not at least
minVoicedFrames; shorter runs are discarded with no emission; buffer,
silence counter and speaking flag are cleared on either outcome. -/
theorem claim2_silence_boundary_amended (cfg : VadConfig) (s : SegState) (f : Frame)
    (hn : f.samples ≠ 0) (hv : ¬ f.rms < cfg.minVolume) (hns : f.isSpeech = false)
    (hsp : s.isSpeaking = true) (hb : cfg.silenceThreshold < s.silentCount + 1) :
    ((stepFrame cfg s f).2 = some (s.buffer ++ [f]) ↔
      cfg.minVoicedFrames < s.buffer.length + 1)
    ∧ ((stepFrame cfg s f).2 = none ↔ ¬ cfg.minVoicedFrames < s.buffer.length + 1)
    ∧ (stepFrame cfg s f).1 = ⟨[], 0, false⟩ := by
  have hlen : (s.buffer ++ [f]).length = s.buffer.length + 1 := by
    rw [List.length_append, List.length_singleton]
  unfold stepFrame
  rw [if_neg hn, if_neg hv, hns]
  simp only [Bool.false_eq_true, if_false, hsp, if_pos, if_true, hlen]
  rw [if_pos hb]
  by_cases hmin : cfg.minVoicedFrames < s.buffer.length + 1
  · rw [if_pos hmin]
    simp [hmin]
  · rw [if_neg hmin]
    simp [hmin]

/-- Claim C2 witness: the amended statement at the real configuration
and a speaking state holding 40 frames with silence count 26; the 41st
frame count strictly exceeds minVoicedFrames = 33 so the utterance is
emitted at this boundary. -/
theorem claim2_silence_boundary_witness :
    ((stepFrame realVadConfig ⟨List.replicate 40 speechFrame, 26, true⟩ quietFrame).2 =
        some (List.replicate 40 speechFrame ++ [quietFrame]) ↔
      realVadConfig.minVoicedFrames < (List.replicate 40 speechFrame).length + 1)
    ∧ ((stepFrame realVadConfig ⟨List.replicate 40 speechFrame, 26, true⟩ quietFrame).2 = none ↔
      ¬ realVadConfig.minVoicedFrames < (List.replicate 40 speechFrame).length + 1)
    ∧ (stepFrame realVadConfig ⟨List.replicate 40 speechFrame, 26, true⟩ quietFrame).1 =
        ⟨[], 0, false⟩ :=
  claim2_silence_boundary_amended realVadConfig ⟨List.replicate 40 speechFrame, 26, true⟩
    quietFrame (by decide) (by decide) (by decide) (by decide) (by decide)

set_option maxRecDepth 400000 in
/-- Claim C2 counterexample: starting from the idle state, six speech
frames followed by twenty-seven non-speech frames at the real
configuration reach the silence boundary with exactly
minVoicedFrames = 33 buffered frames, so the claimed at-least comparison
demands an emission, yet the code emits nothing and clears the state:
the length test is strict. -/
theorem claim2_silence_boundary_counterexample :
    ((runFrames realVadConfig initState
        (List.replicate 6 speechFrame ++ List.replicate 26 quietFrame)).1 =
      ⟨List.replicate 6 speechFrame ++ List.replicate 26 quietFrame, 26, true⟩)
    ∧ realVadConfig.silenceThreshold <
        (runFrames realVadConfig initState
          (List.replicate 6 speechFrame ++ List.replicate 26 quietFrame)).1.silentCount + 1
    ∧ realVadConfig.minVoicedFrames ≤
        (runFrames realVadConfig initState
          (List.replicate 6 speechFrame ++ List.replicate 26 quietFrame)).1.buffer.length + 1
    ∧ stepFrame realVadConfig
        (runFrames realVadConfig initState
          (List.replicate 6 speechFrame ++ List.replicate 26 quietFrame)).1 quietFrame =
        (⟨[], 0, false⟩, none) := by
  decide

/-- Claim C3 (amended): when stop_listening finds a non-empty buffer it
invokes the flush exactly once on that buffer, but the utterance reaches
transcription only when the joined recording is at least 2000 bytes
(about 125 ms); a smaller buffered remainder is dropped by the guard at
the top of _process_and_transcribe_buffer without any emission. -/
theorem claim3_stop_flush_amended (s : SegState) (h : s.buffer ≠ []) :
    stopFlush s = some s.buffer
    ∧ (stopEmits s = true ↔ 2000 ≤ bufferBytes s.buffer) := by
  have hne : s.buffer.isEmpty = false := by
    cases hb : s.buffer with
    | nil => exact absurd hb h
    | cons a t => rfl
  constructor
  · unfold stopFlush
    rw [hne]
    rfl
  · unfold stopEmits stopFlush
    rw [hne]
    simp [transcribesBuffer]

/-- Claim C3 witness: a stop with three 480-sample frames buffered
(2880 bytes) flushes and reaches transcription. -/
theorem claim3_stop_flush_witness :
    stopFlush ⟨List.replicate 3 speechFrame, 0, true⟩ =
      some (List.replicate 3 speechFrame)
    ∧ (stopEmits ⟨List.replicate 3 speechFrame, 0, true⟩ = true ↔
      2000 ≤ bufferBytes (List.replicate 3 speechFrame)) :=
  claim3_stop_flush_amended ⟨List.replicate 3 speechFrame, 0, true⟩ (by decide)

/-- Claim C3 counterexample: one voiced 480-sample frame is buffered (a
reachable state), stop flushes it, but the 2000-byte guard drops it, so
no final utterance emission occurs even though voiced frames were
buffered at stop time. -/
theorem claim3_stop_flush_counterexample :
    (runFrames realVadConfig initState [speechFrame]).1 = ⟨[speechFrame], 0, true⟩
    ∧ stopFlush ⟨[speechFrame], 0, true⟩ = some [speechFrame]
    ∧ stopEmits ⟨[speechFrame], 0, true⟩ = false := by
  decide

/-- Claim C4 (amended): when a processed speech frame pushes the buffer
past maxVoicedFrames the utterance is force-emitted exactly at that
boundary without waiting for silence, but the segmenter then LEAVES the
Speaking state (is_speaking is set back to False) with cleared buffer
and silence counter; the next at-or-above-floor speech frame starts a
fresh buffer, while non-speech frames arriving before it are not
buffered. -/
theorem claim4_max_force_emit_amended (cfg : VadConfig) (s : SegState) (f : Frame)
    (hn : f.samples ≠ 0) (hv : ¬ f.rms < cfg.minVolume) (hsp : f.isSpeech = true)
    (hmax : cfg.maxVoicedFrames < s.buffer.length + 1) :
    stepFrame cfg s f = (⟨[], 0, false⟩, some (s.buffer ++ [f]))
    ∧ (∀ g : Frame, g.samples ≠ 0 → ¬ g.rms < cfg.minVolume → g.isSpeech = true →
        1 ≤ cfg.maxVoicedFrames →
        stepFrame cfg ⟨[], 0, false⟩ g = (⟨[g], 0, true⟩, none))
    ∧ (∀ g : Frame, g.isSpeech = false →
        stepFrame cfg ⟨[], 0, false⟩ g = (⟨[], 0, false⟩, none)) := by
  have hlen : (s.buffer ++ [f]).length = s.buffer.length + 1 := by
    rw [List.length_append, List.length_singleton]
  refine ⟨?_, ?_, ?_⟩
  · unfold stepFrame
    rw [if_neg hn, if_neg hv, hsp]
    simp only [if_true, hlen]
    rw [if_pos hmax]
  · intro g hgn hgv hgs hone
    unfold stepFrame
    rw [if_neg hgn, if_neg hgv, hgs]
    simp only [if_true, List.nil_append, List.length_singleton]
    rw [if_neg (by omega : ¬ cfg.maxVoicedFrames < 1)]
  · intro g hgs
    by_cases hgn : g.samples = 0
    · exact stepFrame_empty cfg _ g hgn
    · by_cases hgv : g.rms < cfg.minVolume
      · exact stepFrame_low cfg _ g hgn hgv
      · unfold stepFrame
        rw [if_neg hgn, if_neg hgv, hgs]
        simp

/-- Claim C4 witness: the amended statement at a small configuration
with maxVoicedFrames 2 and a speaking state holding two frames, so the
third speech frame forces the emission. -/
theorem claim4_max_force_emit_witness :
    stepFrame ⟨2, 2, 2, 300⟩ ⟨List.replicate 2 speechFrame, 0, true⟩ speechFrame =
      (⟨[], 0, false⟩, some (List.replicate 2 speechFrame ++ [speechFrame]))
    ∧ (∀ g : Frame, g.samples ≠ 0 → ¬ g.rms < (⟨2, 2, 2, 300⟩ : VadConfig).minVolume →
        g.isSpeech = true → 1 ≤ (⟨2, 2, 2, 300⟩ : VadConfig).maxVoicedFrames →
        stepFrame ⟨2, 2, 2, 300⟩ ⟨[], 0, false⟩ g = (⟨[g], 0, true⟩, none))
    ∧ (∀ g : Frame, g.isSpeech = false →
        stepFrame ⟨2, 2, 2, 300⟩ ⟨[], 0, false⟩ g = (⟨[], 0, false⟩, none)) :=
  claim4_max_force_emit_amended ⟨2, 2, 2, 300⟩ ⟨List.replicate 2 speechFrame, 0, true⟩
    speechFrame (by decide) (by decide) (by decide) (by decide)

set_option maxRecDepth 1000000 in
/-- Claim C4 counterexample: feeding 334 above-floor speech frames to
the real configuration (maxVoicedFrames = 333) produces exactly one
forced emission at the overflow boundary, after which the segmenter is
NOT in the Speaking state: is_speaking has been reset to False,
contradicting the claim that it remains Speaking; a non-speech frame
arriving right after the forced emission is dropped rather than
buffered. -/
theorem claim4_max_force_emit_counterexample :
    (runFrames realVadConfig initState (List.replicate 334 speechFrame)).2.length = 1
    ∧ (runFrames realVadConfig initState (List.replicate 334 speechFrame)).1 = ⟨[], 0, false⟩
    ∧ realVadConfig.maxVoicedFrames = 333
    ∧ stepFrame realVadConfig ⟨[], 0, false⟩ quietFrame = (⟨[], 0, false⟩, none) := by
  decide

/-- Helper oracle for the C6 counterexample: mirrors json.loads on the
literal text 42, which Python parses to the integer 42. -/
def loadsNum : PyStr → Option JsonV :=
  fun s => if s = "42".toList then some (.num 42) else none

/-- Helper oracle for the C6 witness: mirrors json.loads on the single
response text A, parsed to an open_url object. -/
def loadsUrlObj : PyStr → Option JsonV :=
  fun s => if s = "A".toList then
    some (.obj [("action".toList, .str "open_url".toList),
                ("url".toList, .str "https://x".toList)])
  else none

/-- Claim C6 (amended): get_intent defaults to Chat on network and
timeout failures, on unparseable JSON, on an unrecognized action and on
a missing required field, and maps a well-formed open_url object to the
OpenUrl intent with its url - but it is NOT total: when the response is
valid JSON whose top-level value is not an object, the attribute access
parsed_response.get raises AttributeError, which no except clause of
get_intent catches. -/
theorem claim6_intent_total_amended :
    (∀ (loads : PyStr → Option JsonV) (raw : PyStr) (fs : List (PyStr × JsonV)) (u : JsonV),
      loads (prepResponse raw) = some (.obj fs) →
      lookupList fs "action".toList = some (.str "open_url".toList) →
      lookupList fs "url".toList = some u →
      get_intent (.netOk raw) loads = .ok (.openUrl u))
    ∧ (∀ (loads : PyStr → Option JsonV) (raw : PyStr),
      loads (prepResponse raw) = none → get_intent (.netOk raw) loads = .ok .chat)
    ∧ (∀ (loads : PyStr → Option JsonV) (raw : PyStr) (fs : List (PyStr × JsonV)),
      loads (prepResponse raw) = some (.obj fs) →
      lookupList fs "action".toList = some (.str "unknown_action".toList) →
      get_intent (.netOk raw) loads = .ok .chat)
    ∧ (∀ (loads : PyStr → Option JsonV) (raw : PyStr) (fs : List (PyStr × JsonV)),
      loads (prepResponse raw) = some (.obj fs) →
      lookupList fs "action".toList = some (.str "open_url".toList) →
      lookupList fs "url".toList = none →
      get_intent (.netOk raw) loads = .ok .chat)
    ∧ (∀ loads : PyStr → Option JsonV,
      get_intent .connErr loads = .ok .chat
      ∧ get_intent .timeoutErr loads = .ok .chat
      ∧ get_intent .requestErr loads = .ok .chat)
    ∧ (∀ (loads : PyStr → Option JsonV) (raw : PyStr) (v : JsonV),
      loads (prepResponse raw) = some v → (∀ fs, v ≠ .obj fs) →
      get_intent (.netOk raw) loads = .error .attributeError) := by
  refine ⟨?_, ?_, ?_, ?_, ?_, ?_⟩
  · intro loads raw fs u h1 h2 h3
    simp only [get_intent, routeParsed, h1, h2, h3]
    simp
  · intro loads raw h1
    simp only [get_intent, routeParsed, h1]
  · intro loads raw fs h1 h2
    simp only [get_intent, routeParsed, h1, h2]
    rw [if_neg (by decide : ¬ "unknown_action".toList = "chat".toList)]
    rw [if_neg (by decide : ¬ "unknown_action".toList = "open_url".toList)]
    rw [if_neg (by decide : ¬ "unknown_action".toList = "search_google".toList)]
    rw [if_neg (by decide : ¬ "unknown_action".toList = "open_shortcut".toList)]
  · intro loads raw fs h1 h2 h3
    simp only [get_intent, routeParsed, h1, h2, h3]
    simp only [if_pos trivial]
    rw [ite_self]
  · intro loads
    exact ⟨rfl, rfl, rfl⟩
  · intro loads raw v h1 hobj
    cases v with
    | obj fs => exact absurd rfl (hobj fs)
    | null => simp only [get_intent, routeParsed, h1]
    | boolv b => simp only [get_intent, routeParsed, h1]
    | num n => simp only [get_intent, routeParsed, h1]
    | str s => simp only [get_intent, routeParsed, h1]
    | arr xs => simp only [get_intent, routeParsed, h1]

/-- Claim C6 counterexample: a classifier response consisting of the
valid JSON text 42, a non-object, makes get_intent raise AttributeError
instead of returning a value, so intent classification is not total. -/
theorem claim6_intent_total_counterexample :
    get_intent (.netOk "42".toList) loadsNum = .error .attributeError := by
  rfl

/-- Claim C6 witness: the open_url clause of the amended statement at a
concrete parsed object with a url field. -/
theorem claim6_intent_total_witness :
    get_intent (.netOk "A".toList) loadsUrlObj = .ok (.openUrl (.str "https://x".toList)) :=
  claim6_intent_total_amended.1 loadsUrlObj "A".toList
    [("action".toList, .str "open_url".toList), ("url".toList, .str "https://x".toList)]
    (.str "https://x".toList) rfl rfl rfl

/-- Helper: a command containing rm -rf case-insensitively always hits
the blacklist, whose first entry is rm -rf. -/
theorem blacklistHit_of_rmrf (cmd : PyStr) (h : containsRmRf cmd = true) :
    blacklistHit cmd = true := by
  unfold blacklistHit securityCommandBlacklist
  simp only [List.any_cons, List.any_nil, Bool.or_eq_true, Bool.or_false]
  left
  exact h

/-- Helper shortcut table for the C1 counterexample: a single personal
shortcut whose command template is an rm -rf command. -/
def rmrfShortcuts : List (PyStr × PyStr) :=
  [("boom".toList, "rm -rf /tmp/x".toList)]

/-- Claim C1 (amended): for the open_url, search_google and
direct-command fallback intents, a resolved command string containing
rm -rf (case-insensitively) is refused with the user-visible restricted
message and no process launch - but the open_shortcut intent performs
NO denylist check: execute_command_directly delegates to the top-level
modul_helper.run_shortcut, which launches the formatted template
command unconditionally and reports success.  The stricter validator
_is_command_safe of src/src/modul_helper.py, which modul_ai.py does not
import, does reject a joined command containing rm -rf, though only
when the first word is not in its SAFE_COMMANDS allowlist. -/
theorem claim1_denylist_amended :
    (∀ (sc : List (PyStr × PyStr)) (u : PyStr), u ≠ [] →
      containsRmRf (resolveUrlCommand u) = true →
      execute_command_directly sc (.openUrlI (some u)) = [.yieldMsg restrictedMsg])
    ∧ (∀ (sc : List (PyStr × PyStr)) (q : PyStr), q ≠ [] →
      containsRmRf (googleCommand q) = true →
      execute_command_directly sc (.searchGoogleI (some q)) = [.yieldMsg restrictedMsg])
    ∧ (∀ (sc : List (PyStr × PyStr)) (c : PyStr), c ≠ [] →
      containsRmRf c = true →
      execute_command_directly sc (.directI (some c)) = [.yieldMsg restrictedMsg])
    ∧ (∀ (sc : List (PyStr × PyStr)) (key : PyStr) (params : List (PyStr × PyStr))
        (tmpl cmd : PyStr), key ≠ [] →
      lookupList sc key = some tmpl →
      formatTemplate (encodeKwargs params) tmpl = some cmd →
      execute_command_directly sc (.openShortcutI (some key) params) =
        [.launch cmd, .yieldMsg okOpenedMsg])
    ∧ (∀ (name : PyStr) (rest : List PyStr),
      safeCommands.contains name = false →
      listContains "rm -rf".toList (pyLower (joinSpace (name :: rest))) = true →
      is_command_safe (name :: rest) = false) := by
  refine ⟨?_, ?_, ?_, ?_, ?_⟩
  · intro sc u hne h
    have hie : u.isEmpty = false := by
      cases u with
      | nil => exact absurd rfl hne
      | cons a t => rfl
    simp only [execute_command_directly, hie, Bool.false_eq_true, if_false]
    rw [if_pos (blacklistHit_of_rmrf _ h)]
  · intro sc q hne h
    have hie : q.isEmpty = false := by
      cases q with
      | nil => exact absurd rfl hne
      | cons a t => rfl
    simp only [execute_command_directly, hie, Bool.false_eq_true, if_false]
    rw [if_pos (blacklistHit_of_rmrf _ h)]
  · intro sc c hne h
    have hie : c.isEmpty = false := by
      cases c with
      | nil => exact absurd rfl hne
      | cons a t => rfl
    simp only [execute_command_directly, hie, Bool.false_eq_true, if_false]
    rw [if_pos (blacklistHit_of_rmrf _ h)]
  · intro sc key params tmpl cmd hne hlook hfmt
    have hie : key.isEmpty = false := by
      cases key with
      | nil => exact absurd rfl hne
      | cons a t => rfl
    simp only [execute_command_directly, hie, Bool.false_eq_true, if_false,
      run_shortcut, hlook, hfmt]
  · intro name rest hsafe hpat
    simp only [is_command_safe, hsafe, Bool.false_eq_true, if_false]
    unfold dangerousPatterns
    have hpat2 : listContains ['r', 'm', ' ', '-', 'r', 'f']
        (pyLower (joinSpace (name :: rest))) = true := hpat
    simp [List.any_cons, hpat2]

/-- Claim C1 counterexample: an open_shortcut intent whose personal
shortcut resolves to the command rm -rf /tmp/x is launched through the
shell and reported with the success message, with no refusal, even
though the resolved command contains rm -rf. -/
theorem claim1_denylist_counterexample :
    execute_command_directly rmrfShortcuts (.openShortcutI (some "boom".toList) []) =
      [.launch "rm -rf /tmp/x".toList, .yieldMsg okOpenedMsg]
    ∧ containsRmRf "rm -rf /tmp/x".toList = true := by
  decide

/-- Claim C1 witness: the open_url clause of the amended statement on a
url that resolves to a command containing rm -rf. -/
theorem claim1_denylist_witness :
    execute_command_directly rmrfShortcuts (.openUrlI (some "rm -rf /home".toList)) =
      [.yieldMsg restrictedMsg] :=
  claim1_denylist_amended.1 rmrfShortcuts "rm -rf /home".toList (by decide) (by decide)

/-- Helper: the streaming loop on a run of not-done chunks followed by a
failure yields exactly those tokens and reports the failure. -/
theorem streamLoop_fail (pre : List StreamEv) (m : PyStr) (post : List StreamEv)
    (h : allChunksNotDone pre = true) :
    streamLoop (pre ++ StreamEv.netFail m :: post) = (chunkToks pre, joinChunks pre, some m) := by
  induction pre with
  | nil => rfl
  | cons ev rest ih =>
    cases ev with
    | chunk t d =>
      cases d with
      | false =>
        have h2 : allChunksNotDone rest = true := h
        simp only [List.cons_append, streamLoop, List.append_eq,
          if_neg (by decide : ¬ false = true), chunkToks, joinChunks]
        rw [ih h2]
      | true => cases h
    | netFail m2 => cases h

/-- Claim C7: in a chat response cycle the user message is appended to
memory before streaming; when the stream ends cleanly the assistant
message is appended exactly once, after the stream, containing the
filtered accumulated text or the apology placeholder when filtering
empties it, and the yielded tokens are the streamed tokens; when a
connection or timeout failure interrupts the stream, the generator
yields the already-streamed tokens followed by exactly one
error-describing token and stops, and no assistant message is written
to memory. -/
theorem claim7_chat_stream_memory :
    (∀ (mem : ChatMemory) (prompt : PyStr) (events : List StreamEv) (ts1 ts2 : Nat),
      (streamLoop events).2.2 = none →
      ask_ollama_chat mem prompt events ts1 ts2 =
        ((streamLoop events).1,
          addMessage (addMessage mem userRole prompt ts1) assistantRole
            (if (filterResponse (streamLoop events).2.1).isEmpty then apologyMsg
              else filterResponse (streamLoop events).2.1) ts2))
    ∧ (∀ (mem : ChatMemory) (prompt : PyStr) (pre : List StreamEv) (m : PyStr)
        (post : List StreamEv) (ts1 ts2 : Nat),
      allChunksNotDone pre = true →
      ask_ollama_chat mem prompt (pre ++ StreamEv.netFail m :: post) ts1 ts2 =
        (chunkToks pre ++ [errorToken m], addMessage mem userRole prompt ts1)) := by
  constructor
  · intro mem prompt events ts1 ts2 h
    cases hsl : streamLoop events with
    | mk ys rest =>
      cases rest with
      | mk acc e =>
        rw [hsl] at h
        simp only at h
        subst h
        simp only [ask_ollama_chat, hsl]
  · intro mem prompt pre m post ts1 ts2 h
    simp only [ask_ollama_chat, streamLoop_fail pre m post h]

/-- Claim C7 witness: a two-chunk stream interrupted by a connection
failure yields the streamed token then one error token, and only the
user message reaches memory. -/
theorem claim7_chat_stream_witness :
    ask_ollama_chat (emptyMemory 10) "hi".toList
      [StreamEv.chunk "He".toList false, StreamEv.netFail "boom".toList] 0 1 =
      (["He".toList, errorToken "boom".toList],
        addMessage (emptyMemory 10) userRole "hi".toList 0) :=
  claim7_chat_stream_memory.2 (emptyMemory 10) "hi".toList
    [StreamEv.chunk "He".toList false] "boom".toList [] 0 1 rfl

/-- Sanity check of the response filter: ordinary text passes through
unchanged. -/
theorem filterResponse_plain :
    filterResponse "Hello there.".toList = "Hello there.".toList := by decide

/-- Sanity check of the response filter: a leaked marker removes the
text from the marker to the end, so a response that is nothing but
leaked instruction text filters to empty, which triggers the apology
substitution in ask_ollama_chat. -/
theorem filterResponse_empties :
    filterResponse "---x".toList = [] ∧
    filterResponse "Hi. ### Instruction: do things".toList = "Hi.".toList := by decide
